import Mathlib

/-!
Verification of the Templite template engine (Build-Your-Own-Template-Engine-in-Python).

The development shallowly embeds the repository's Python sources:
* `src/src/expression_parser.py` — the Pratt expression parser (tokenizer,
  `nud`/`led`/`parse_expression`/`handle_function_call`, binding powers);
* `src/src/codebuilder.py` — the `CodeBuilder` indentation-aware accumulator;
* `src/src/exceptions.py` — the error kinds.
The `Templite` class itself (`templite.py`) is not among the provided sources;
where a property needs it (tokenizing the three delimiter pairs, the statement
compiler, rendering), the missing parts are modelled from the specification and
are marked `Modelled from the spec:` in their doc comments.

Machine conventions: Python strings become `String`/`List Char`; Python
exceptions become an explicit error type threaded through `Except`;
the recursive-descent parser is given explicit fuel (the `outOfFuel` outcome is
an artifact of the embedding, never a behavior of the code).
-/

/-- Error outcomes of the embedded code.  `synErr` models
`templite._syntax_error(msg, thing)` raising `TempliteSyntaxError` (a subclass of
`ValueError`, from `src/src/exceptions.py`); `valueError` models a plain
`raise ValueError(msg)`; `indexError` models a Python `IndexError` from list
indexing; `outOfFuel` is an artifact of the fuel-based embedding. -/
inductive TemplErr where
  | synErr (msg : String) (thing : String)
  | valueError (msg : String)
  | indexError
  | outOfFuel
  deriving DecidableEq, Repr

/-- A token of the expression sub-language: (kind, literal text), as built by
`ExpressionParser._tokenize`. -/
abbrev Tok := String × String

/-- Python word character (`\w` over ASCII, as used by the tokenizer regexes). -/
def isWordChar (c : Char) : Bool := c.isAlpha || c.isDigit || c == '_'

/-- First character of an identifier (`[_a-zA-Z]`). -/
def isIdStart (c : Char) : Bool := c.isAlpha || c == '_'

/-- Whether the keyword `kw` matches at the front of `cs` with a word boundary
after it (the trailing `\b` of the `LOGIC` alternative). -/
def kwMatch (kw : List Char) (cs : List Char) : Bool :=
  List.isPrefixOf kw cs &&
    (match cs.drop kw.length with
     | [] => true
     | c :: _ => !isWordChar c)

/-- Position `\b` left-boundary test for the `LOGIC` keywords: true at the
start of the text or after a non-word character (the keywords start with a
word character, so the boundary holds exactly then). -/
def atBoundary : Option Char → Bool
  | none => true
  | some p => !isWordChar p

/-- Outcome of one scanning position: emit a token and continue, continue
without a token (`SKIP`, or a character not even `MISMATCH` matches), or stop
with the `MISMATCH` `ValueError` message. -/
inductive TokStep where
  | emit (t : Tok) (prev : Option Char) (rest : List Char)
  | skip (prev : Option Char) (rest : List Char)
  | mismatch (msg : String)
  deriving Repr

/-- One scanning step of `ExpressionParser._tokenize` (the compiled alternation
`NUMBER|STRING|LOGIC|ID|LPAREN|RPAREN|DOT|COMP|OP|SKIP|PIPE|MISMATCH` applied
at one position by `re.finditer`, alternatives tried in order, each greedy).
`prev` is the character just before the current position (for the `\b`
word-boundary assertions of the `LOGIC` alternative). -/
def exprTokStep (prev : Option Char) (c : Char) (cs : List Char) : TokStep :=
  if c.isDigit then
    -- NUMBER: \d+(\.\d*)?
    let ds := List.takeWhile Char.isDigit (c :: cs)
    let rest := List.dropWhile Char.isDigit (c :: cs)
    match rest with
    | '.' :: rest2 =>
      let fs := List.takeWhile Char.isDigit rest2
      let rest3 := List.dropWhile Char.isDigit rest2
      let v := ds ++ ['.'] ++ fs
      .emit ("NUMBER", String.mk v) (some (v.getLastD '0')) rest3
    | _ => .emit ("NUMBER", String.mk ds) (some (ds.getLastD '0')) rest
  else if c == '"' then
    -- STRING: "[^"]*" ; with no closing quote the alternative fails and the
    -- quote character falls through to MISMATCH.
    let body := List.takeWhile (fun d => d != '"') cs
    match List.dropWhile (fun d => d != '"') cs with
    | '"' :: rest => .emit ("STRING", String.mk ('"' :: body ++ ['"'])) (some '"') rest
    | _ => .mismatch ("Unexpected character: " ++ String.mk [c])
  else if atBoundary prev && kwMatch ['a', 'n', 'd'] (c :: cs) then
    .emit ("LOGIC", "and") (some 'd') ((c :: cs).drop 3)
  else if atBoundary prev && kwMatch ['o', 'r'] (c :: cs) then
    .emit ("LOGIC", "or") (some 'r') ((c :: cs).drop 2)
  else if atBoundary prev && kwMatch ['n', 'o', 't'] (c :: cs) then
    .emit ("LOGIC", "not") (some 't') ((c :: cs).drop 3)
  else if isIdStart c then
    -- ID: [_a-zA-Z][_a-zA-Z0-9]*
    let v := c :: List.takeWhile isWordChar cs
    .emit ("ID", String.mk v) (some (v.getLastD c)) (List.dropWhile isWordChar cs)
  else if c == '(' then .emit ("LPAREN", "(") (some c) cs
  else if c == ')' then .emit ("RPAREN", ")") (some c) cs
  else if c == '.' then .emit ("DOT", ".") (some c) cs
  else if c == '=' && cs.headD ' ' == '=' then .emit ("COMP", "==") (some '=') cs.tail
  else if c == '!' && cs.headD ' ' == '=' then .emit ("COMP", "!=") (some '=') cs.tail
  else if c == '<' && cs.headD ' ' == '=' then .emit ("COMP", "<=") (some '=') cs.tail
  else if c == '>' && cs.headD ' ' == '=' then .emit ("COMP", ">=") (some '=') cs.tail
  else if c == '<' then .emit ("COMP", "<") (some c) cs
  else if c == '>' then .emit ("COMP", ">") (some c) cs
  else if c == '+' || c == '-' || c == '*' || c == '/' || c == '%' then
    .emit ("OP", String.mk [c]) (some c) cs
  else if c == ' ' || c == '\t' then
    -- SKIP: [ \t]+ (no token emitted)
    .skip (some c) cs
  else if c == '|' then .emit ("PIPE", "|") (some c) cs
  else if c == '\n' then
    -- MISMATCH is the regex `.`, which does not match a newline: finditer
    -- skips the character without any match.
    .skip (some c) cs
  else .mismatch ("Unexpected character: " ++ String.mk [c])

/-- The scanning loop of `_tokenize`: apply `exprTokStep` at each position,
raise `ValueError` on a `MISMATCH`, and append the final `EOF` token. -/
def exprTokenizeAux : Nat → Option Char → List Char → Except TemplErr (List Tok)
  | 0, _, _ => .error .outOfFuel
  | _ + 1, _, [] => .ok [("EOF", "EOF")]
  | fuel + 1, prev, c :: cs =>
    match exprTokStep prev c cs with
    | .emit t p rest => (fun ts => t :: ts) <$> exprTokenizeAux fuel p rest
    | .skip p rest => exprTokenizeAux fuel p rest
    | .mismatch msg => .error (.valueError msg)

/-- `ExpressionParser._tokenize`: tokenize the text of one expression clause. -/
def exprTokenize (cs : List Char) : Except TemplErr (List Tok) :=
  exprTokenizeAux (cs.length + 1) none cs

/-- The Python code fragments built by the parser.  Each constructor corresponds
to exactly one string-building return site of `expression_parser.py`;
`PyExpr.code` below reproduces those strings verbatim. -/
inductive PyExpr where
  | num (v : String)
  | strLit (v : String)
  | var (name : String)
  | paren (e : PyExpr)
  | notE (e : PyExpr)
  | binop (l : PyExpr) (op : String) (r : PyExpr)
  | dots (l : PyExpr) (prop : String)
  | pipe (filt : String) (l : PyExpr)
  | call (name : String) (args : List PyExpr)
  deriving Repr

mutual

/-- The exact Python source string the parser builds for an expression (the
f-strings of `nud`, `led` and `handle_function_call`). -/
def PyExpr.code : PyExpr → String
  | .num v => v
  | .strLit v => v
  | .var n => "c_" ++ n
  | .paren e => "(" ++ e.code ++ ")"
  | .notE e => "(not " ++ e.code ++ ")"
  | .binop l op r => "(" ++ l.code ++ " " ++ op ++ " " ++ r.code ++ ")"
  | .dots l prop => "do_dots(" ++ l.code ++ ", \x27" ++ prop ++ "\x27)"
  | .pipe f l => "c_" ++ f ++ "(" ++ l.code ++ ")"
  | .call n args => "c_" ++ n ++ "(" ++ PyExpr.codeArgs args ++ ")"

/-- `", ".join(args)` over already-generated argument code. -/
def PyExpr.codeArgs : List PyExpr → String
  | [] => ""
  | [a] => a.code
  | a :: rest => a.code ++ ", " ++ PyExpr.codeArgs rest

end

/-- Parser state: the token list, the cursor `self.pos`, and the set of free
names registered so far (`templite.all_vars`, kept as an insertion-ordered
duplicate-free list). -/
structure PState where
  tokens : List Tok
  pos : Nat
  vars : List String
  deriving Repr

/-- `ExpressionParser.peek`: `self.tokens[self.pos]`, raising `IndexError` when
out of range. -/
def peekT (s : PState) : Except TemplErr Tok :=
  match s.tokens.get? s.pos with
  | some t => .ok t
  | none => .error .indexError

/-- `ExpressionParser.advance`: step past the current token and return it,
raising `IndexError` when out of range. -/
def advanceT (s : PState) : Except TemplErr (Tok × PState) :=
  match s.tokens.get? s.pos with
  | some t => .ok (t, { s with pos := s.pos + 1 })
  | none => .error .indexError

/-- Modelled from the spec: `templite._variable` (the `Templite` class is not
among the provided sources) "registers" a name "as a required free name" —
recorded here as insertion into the collected free-name list. -/
def registerVar (name : String) (s : PState) : PState :=
  { s with vars := if name ∈ s.vars then s.vars else s.vars ++ [name] }

/-- `ExpressionParser.binding_power`. -/
def binding_power (op : String) : Nat :=
  if op == "." then 80
  else if op == "not" then 70
  else if op == "|" then 60
  else if op == "*" || op == "/" || op == "%" then 50
  else if op == "+" || op == "-" then 40
  else if op == "==" || op == "!=" || op == "<" || op == "<=" || op == ">" ||
          op == ">=" then 30
  else if op == "and" then 20
  else if op == "or" then 10
  else 0

/-- `ExpressionParser.match`: consume a token of the expected kind or raise a
syntax error naming the expected kind and the token actually found. -/
def matchTok (expected : String) (s : PState) : Except TemplErr (Tok × PState) := do
  let (k, v) ← peekT s
  if k == expected then advanceT s
  else .error (.synErr ("Expected " ++ expected) v)

mutual

/-- `ExpressionParser.nud` (null denotation: atoms and the `not` operator). -/
def nud : Nat → PState → Except TemplErr (PyExpr × PState)
  | 0, _ => .error .outOfFuel
  | fuel + 1, s => do
    let ((k, v), s) ← advanceT s
    if k == "NUMBER" then .ok (.num v, s)
    else if k == "STRING" then .ok (.strLit v, s)
    else if k == "ID" then do
      let t2 ← peekT s
      if t2.1 == "LPAREN" then handle_function_call fuel v s
      else .ok (.var v, registerVar v s)
    else if k == "LPAREN" then do
      let (e, s) ← parse_expression fuel 0 s
      let (_, s) ← matchTok "RPAREN" s
      .ok (.paren e, s)
    else if v == "not" then do
      let (e, s) ← parse_expression fuel 70 s
      .ok (.notE e, s)
    else .error (.synErr "Invalid expression start" v)

/-- `ExpressionParser.parse_expression`: precedence-climbing entry. -/
def parse_expression : Nat → Nat → PState → Except TemplErr (PyExpr × PState)
  | 0, _, _ => .error .outOfFuel
  | fuel + 1, rbp, s => do
    let (left, s) ← nud fuel s
    parse_loop fuel rbp left s

/-- The `while rbp < self.current_token_bp()` loop of `parse_expression`. -/
def parse_loop : Nat → Nat → PyExpr → PState → Except TemplErr (PyExpr × PState)
  | 0, _, _, _ => .error .outOfFuel
  | fuel + 1, rbp, left, s => do
    let (_, v) ← peekT s
    if rbp < binding_power v then do
      let (left2, s) ← led fuel left s
      parse_loop fuel rbp left2 s
    else .ok (left, s)

/-- `ExpressionParser.led` (left denotation: infix and postfix operators). -/
def led : Nat → PyExpr → PState → Except TemplErr (PyExpr × PState)
  | 0, _, _ => .error .outOfFuel
  | fuel + 1, left, s => do
    let (k, v) ← peekT s
    if k == "OP" || k == "COMP" || k == "LOGIC" then do
      let bp := binding_power v
      let (_, s) ← advanceT s
      let (right, s) ← parse_expression fuel bp s
      .ok (.binop left v right, s)
    else if k == "DOT" then do
      let (_, s) ← advanceT s
      let pt ← peekT s
      let (_, s) ← advanceT s
      .ok (.dots left pt.2, s)
    else if k == "PIPE" then do
      let (_, s) ← advanceT s
      let ft ← peekT s
      let (_, s) ← advanceT s
      .ok (.pipe ft.2 left, registerVar ft.2 s)
    else .error (.synErr "Invalid operator" v)

/-- `ExpressionParser.handle_function_call` after the callee identifier. -/
def handle_function_call : Nat → String → PState → Except TemplErr (PyExpr × PState)
  | 0, _, _ => .error .outOfFuel
  | fuel + 1, name, s => do
    let (_, s) ← advanceT s
    let (args, s) ← call_args fuel [] s
    let (_, s) ← matchTok "RPAREN" s
    .ok (.call name args, registerVar name s)

/-- The argument-collecting `while` loop of `handle_function_call`.  Note that
it compares the peeked token *kind* against `","`, a kind the tokenizer never
produces. -/
def call_args : Nat → List PyExpr → PState → Except TemplErr (List PyExpr × PState)
  | 0, _, _ => .error .outOfFuel
  | fuel + 1, acc, s => do
    let (k, _) ← peekT s
    if k == "RPAREN" then .ok (acc, s)
    else do
      let (a, s) ← parse_expression fuel 0 s
      let (k2, _) ← peekT s
      if k2 == "," then do
        let (_, s) ← advanceT s
        call_args fuel (acc ++ [a]) s
      else call_args fuel (acc ++ [a]) s

end

/-- `ExpressionParser.parse` on a ready token list: parse one full expression
and require the `EOF` token. -/
def parseToks (toks : List Tok) : Except TemplErr (PyExpr × List String) := do
  let s : PState := ⟨toks, 0, []⟩
  let (e, s) ← parse_expression (8 * toks.length + 16) 0 s
  let (_, s) ← matchTok "EOF" s
  .ok (e, s.vars)

/-- Tokenize then parse the text of one expression clause; returns the parsed
expression together with the registered free names. -/
def parseText (text : String) : Except TemplErr (PyExpr × List String) := do
  let toks ← exprTokenize text.data
  parseToks toks

/-- The Python code string generated for an expression clause, together with
the registered free names. -/
def parseCode (text : String) : Except TemplErr (String × List String) :=
  (parseText text).map (fun r => (r.1.code, r.2))

/-! ## CodeBuilder (`src/src/codebuilder.py`)

A `CodeBuilder` holds a list of items — string fragments and nested
sub-builders ("sections") — plus the current indentation level (a Python int,
which `dedent` can drive negative, so it is an `Int` here).  In Python a
section returned by `add_section` is an alias of the object stored in the
parent's list, so later mutations through the alias are visible at the stored
position; the embedding makes that explicit by addressing every operation at a
*path* of child indices from the root builder. -/

mutual

inductive CBItem where
  | frag : String → CBItem
  | sub : CodeBuilder → CBItem
  deriving Repr

/-- The state of one `CodeBuilder` object: `self.code` and `self.indent_level`. -/
inductive CodeBuilder where
  | mk : List CBItem → Int → CodeBuilder
  deriving Repr

end

/-- `self.code` of a builder. -/
def CodeBuilder.items : CodeBuilder → List CBItem
  | .mk items _ => items

/-- `self.indent_level` of a builder. -/
def CodeBuilder.level : CodeBuilder → Int
  | .mk _ lvl => lvl

/-- `CodeBuilder.INDENT_STEP` (PEP8). -/
def INDENT_STEP : Int := 4

/-- Python `" " * n` (zero repetitions when `n` is negative). -/
def spaces (n : Int) : String := String.mk (List.replicate n.toNat ' ')

/-- `CodeBuilder.__init__(indent)`. -/
def CodeBuilder.init (indent : Int) : CodeBuilder := .mk [] indent

/-- The operations a caller can perform on one `CodeBuilder` object. -/
inductive CBOp where
  | add_line (line : String)
  | indent
  | dedent
  | add_section
  deriving Repr, DecidableEq

/-- One operation applied directly to one builder object
(`add_line` / `indent` / `dedent` / `add_section` of `codebuilder.py`). -/
def applyLocal (op : CBOp) : CodeBuilder → CodeBuilder
  | .mk items lvl =>
    match op with
    | .add_line line => .mk (items ++ [.frag (spaces lvl), .frag line, .frag "\n"]) lvl
    | .indent => .mk items (lvl + INDENT_STEP)
    | .dedent => .mk items (lvl - INDENT_STEP)
    | .add_section => .mk (items ++ [.sub (.mk [] lvl)]) lvl

/-- Replace the element at index `i` (identity when out of range). -/
def listModify {α : Type} (f : α → α) : Nat → List α → List α
  | _, [] => []
  | 0, x :: xs => f x :: xs
  | i + 1, x :: xs => x :: listModify f i xs

/-- Apply an operation to the builder object reached from the root by the path
of sub-builder indices (in Python the alias returned by `add_section` *is* the
object stored in the parent's list, so mutating it through the alias mutates it
at its stored position; paths make this sharing explicit).  A path step that
does not lead to a section leaves the tree unchanged. -/
def applyAt : List Nat → CBOp → CodeBuilder → CodeBuilder
  | [], op, b => applyLocal op b
  | i :: p, op, .mk items lvl =>
    .mk (listModify (fun it => match it with
          | .sub c => .sub (applyAt p op c)
          | .frag f => .frag f) i items) lvl

/-- Run a sequence of path-addressed operations from a starting builder. -/
def applyOps (ops : List (List Nat × CBOp)) (b : CodeBuilder) : CodeBuilder :=
  ops.foldl (fun acc po => applyAt po.1 po.2 acc) b

mutual

/-- `CodeBuilder.__str__`: concatenation of all items in order, recursing into
sections at their stored positions. -/
def CodeBuilder.toStr : CodeBuilder → String
  | .mk items _ => itemsStr items

def itemsStr : List CBItem → String
  | [] => ""
  | it :: its => itemStr it ++ itemsStr its

def itemStr : CBItem → String
  | .frag f => f
  | .sub c => c.toStr

end

/-- `CodeBuilder.get_globals`: asserts `self.indent_level == 0`, then builds the
Python source via `str(self)` and executes it.  The dynamic `exec` is outside
the embedding: the model returns the source string that would be executed, and
`none` models the failing `assert`. -/
def get_globals (b : CodeBuilder) : Option String :=
  if b.level = 0 then some b.toStr else none

/-! ## The Templite pipeline, modelled from the spec

`templite.py` (the `Templite` class: delimiter tokenizer, statement compiler,
renderer, `do_dots`) is not among the provided sources — only its callers,
tests and the spec describe it.  Everything in this section is therefore
modelled from the spec (sections 4.1, 4.3, 4.4, 4.5, 6), and reuses the
faithfully embedded expression parser for expression clauses. -/

/-- A segment produced by the delimiter tokenizer (spec section 3). -/
inductive Seg where
  | lit (text : List Char)
  | expr (text : List Char)
  | tag (text : List Char)
  | comment
  deriving Repr, DecidableEq

/-- Whether the text begins with one of the three delimiter openers. -/
def startsOpener (cs : List Char) : Bool :=
  List.isPrefixOf ['{', '{'] cs || List.isPrefixOf ['{', '%'] cs ||
    List.isPrefixOf ['{', '#'] cs

/-- Split at the nearest occurrence of the two-character closing delimiter
(non-greedy matching, spec section 4.1): returns the span before it and the
text after it, or `none` when it never occurs. -/
def findCloser (c1 c2 : Char) : List Char → Option (List Char × List Char)
  | [] => none
  | c :: cs =>
    if c == c1 && List.isPrefixOf [c2] cs then some ([], cs.tail)
    else (fun r => (c :: r.1, r.2)) <$> findCloser c1 c2 cs

/-- Prepend a character onto the leading literal segment, creating one if the
segment list does not start with a literal. -/
def consLit (c : Char) : List Seg → List Seg
  | .lit t :: rest => .lit (c :: t) :: rest
  | segs => .lit [c] :: segs

/-- Modelled from the spec (section 4.1): the delimiter tokenizer.  Scans for
the three delimiter pairs, producing expression / tag / comment segments with
the spans between openers preserved byte-for-byte as literal segments; an
opener with no matching closer before end-of-source is a syntax error. -/
def ttokenizeAux : Nat → List Char → Except TemplErr (List Seg)
  | 0, _ => .error .outOfFuel
  | _ + 1, [] => .ok []
  | fuel + 1, c :: cs =>
    if c == '{' && List.isPrefixOf ['{'] cs then
      match findCloser '}' '}' cs.tail with
      | some (body, rest) => (fun segs => .expr body :: segs) <$> ttokenizeAux fuel rest
      | none => .error (.synErr "Unterminated delimiter" "\x7b\x7b")
    else if c == '{' && List.isPrefixOf ['%'] cs then
      match findCloser '%' '}' cs.tail with
      | some (body, rest) => (fun segs => .tag body :: segs) <$> ttokenizeAux fuel rest
      | none => .error (.synErr "Unterminated delimiter" "\x7b%")
    else if c == '{' && List.isPrefixOf ['#'] cs then
      match findCloser '#' '}' cs.tail with
      | some (_, rest) => (fun segs => .comment :: segs) <$> ttokenizeAux fuel rest
      | none => .error (.synErr "Unterminated delimiter" "\x7b#")
    else
      consLit c <$> ttokenizeAux fuel cs

/-- Modelled from the spec: delimiter tokenization of a whole source text. -/
def ttokenize (cs : List Char) : Except TemplErr (List Seg) :=
  ttokenizeAux (cs.length + 1) cs

/-- The instruction program (spec section 3). -/
inductive Inst where
  | emitLit (text : List Char)
  | emitExpr (e : PyExpr)
  | ifI (cond : PyExpr) (body : List Inst)
  | forI (name : String) (iter : PyExpr) (body : List Inst)
  deriving Repr

/-- Word accumulator for `splitWords` (`acc` holds the current word
reversed). -/
def splitWordsAux : List Char → List Char → List String
  | acc, [] => if acc.isEmpty then [] else [String.mk acc.reverse]
  | acc, c :: cs =>
    if c.isWhitespace then
      if acc.isEmpty then splitWordsAux [] cs
      else String.mk acc.reverse :: splitWordsAux [] cs
    else splitWordsAux (c :: acc) cs

/-- Python `str.split()`: split on runs of whitespace, dropping empties. -/
def splitWords (cs : List Char) : List String := splitWordsAux [] cs

/-- A well-formed identifier (`[_a-zA-Z][_a-zA-Z0-9]*`). -/
def isIdent (w : String) : Bool :=
  match w.data with
  | [] => false
  | c :: rest => isIdStart c && rest.all isWordChar

/-- An open block frame awaiting its end tag (spec section 3). -/
inductive FrameCtx where
  | ifC (cond : PyExpr)
  | forC (name : String) (iter : PyExpr)
  deriving Repr

/-- Modelled from the spec (section 4.3): the statement compiler.  Processes
segments in order, keeping the instructions of the innermost open block in
`cur` and a stack of open frames (each with the instruction list it
suspended); expression clauses go through the embedded expression parser. -/
def compileSegsAux : List Seg → List Inst → List (FrameCtx × List Inst) →
    Except TemplErr (List Inst)
  | [], cur, [] => .ok cur
  | [], _, _ :: _ => .error (.synErr "Unclosed tag" "")
  | seg :: segs, cur, stack =>
    match seg with
    | .lit t => compileSegsAux segs (cur ++ [.emitLit t]) stack
    | .comment => compileSegsAux segs cur stack
    | .expr t => do
      let (e, _) ← parseText (String.mk t)
      compileSegsAux segs (cur ++ [.emitExpr e]) stack
    | .tag t =>
      match splitWords t with
      | [] => .error (.synErr "Empty tag" "")
      | w :: rest =>
        if w == "if" then do
          let (e, _) ← parseText (String.intercalate " " rest)
          compileSegsAux segs [] ((.ifC e, cur) :: stack)
        else if w == "for" then
          match rest with
          | name :: inw :: iterWords =>
            if inw == "in" && iterWords ≠ [] then
              if isIdent name then do
                let (e, _) ← parseText (String.intercalate " " iterWords)
                compileSegsAux segs [] ((.forC name e, cur) :: stack)
              else .error (.synErr "Not a valid name" name)
            else .error (.synErr "Invalid for tag" (String.mk t))
          | _ => .error (.synErr "Invalid for tag" (String.mk t))
        else if w == "endif" || w == "endfor" then
          match stack with
          | [] => .error (.synErr "Unmatched end tag" w)
          | (.ifC cond, saved) :: stack' =>
            if w == "endif" then
              compileSegsAux segs (saved ++ [.ifI cond cur]) stack'
            else .error (.synErr "Mismatched end tag" w)
          | (.forC name iter, saved) :: stack' =>
            if w == "endfor" then
              compileSegsAux segs (saved ++ [.forI name iter cur]) stack'
            else .error (.synErr "Mismatched end tag" w)
        else .error (.synErr "Unknown tag" w)

/-- Runtime values, the explicit sum type recommended by the spec's design
notes.  Callables and floating-point numbers are outside the model (a callable
cannot occur inside a first-order inductive value type; float arithmetic is
not exactly representable), so the evaluator reports `unmodelled` where only
they could be involved — no claim in this development exercises those spots. -/
inductive Value where
  | none
  | bool (b : Bool)
  | int (n : Int)
  | str (s : String)
  | list (vs : List Value)
  | map (kvs : List (String × Value))
  deriving Repr

/-- Render-time errors (spec section 7). -/
inductive RErr where
  | keyError (name : String)
  | typeError (msg : String)
  | zeroDivision
  | notIterable
  | unmodelled (msg : String)
  | outOfFuel
  deriving DecidableEq, Repr

/-- Value of an all-digit numeral. -/
def natOfDigits (cs : List Char) : Nat :=
  cs.foldl (fun a c => a * 10 + (c.toNat - 48)) 0

/-- Modelled from the spec (design notes): literal parsing is deferred to the
host language in the reference; here an integer literal is an all-digit token,
and a token with a decimal point would be a Python float, outside the model. -/
def numLit (v : String) : Except RErr Value :=
  if !v.data.isEmpty && v.data.all Char.isDigit then .ok (.int (natOfDigits v.data))
  else .error (.unmodelled "float literal")

/-- The merged name-to-value environment of one render invocation. -/
abbrev Ctx := List (String × Value)

/-- First match wins (later bindings are consed on the front). -/
def lookupCtx (n : String) : Ctx → Option Value
  | [] => Option.none
  | (k, v) :: rest => if k == n then some v else lookupCtx n rest

/-- Python truthiness (spec section 4.3: "empty/zero/absent-equivalent values
are false"). -/
def truthy : Value → Bool
  | .none => false
  | .bool b => b
  | .int n => n != 0
  | .str s => s != ""
  | .list vs => !vs.isEmpty
  | .map kvs => !kvs.isEmpty

mutual

/-- Python `repr` for the modelled values. -/
def pyRepr : Value → String
  | .none => "None"
  | .bool true => "True"
  | .bool false => "False"
  | .int n => toString n
  | .str s => "\x27" ++ s ++ "\x27"
  | .list vs => "[" ++ pyReprList vs ++ "]"
  | .map kvs => "\x7b" ++ pyReprMap kvs ++ "\x7d"

def pyReprList : List Value → String
  | [] => ""
  | [v] => pyRepr v
  | v :: vs => pyRepr v ++ ", " ++ pyReprList vs

def pyReprMap : List (String × Value) → String
  | [] => ""
  | [(k, v)] => "\x27" ++ k ++ "\x27: " ++ pyRepr v
  | (k, v) :: kvs => "\x27" ++ k ++ "\x27: " ++ pyRepr v ++ ", " ++ pyReprMap kvs

end

/-- Python `str` for the modelled values (differs from `repr` only on
strings). -/
def pyStr : Value → String
  | .str s => s
  | v => pyRepr v

mutual

/-- Structural equality of values (Python `==` over the modelled fragment). -/
def valueEq : Value → Value → Bool
  | .none, .none => true
  | .bool a, .bool b => a == b
  | .int a, .int b => a == b
  | .str a, .str b => a == b
  | .list a, .list b => valueListEq a b
  | .map a, .map b => valueMapEq a b
  | _, _ => false

def valueListEq : List Value → List Value → Bool
  | [], [] => true
  | a :: as, b :: bs => valueEq a b && valueListEq as bs
  | _, _ => false

def valueMapEq : List (String × Value) → List (String × Value) → Bool
  | [], [] => true
  | (ka, va) :: as, (kb, vb) :: bs => ka == kb && valueEq va vb && valueMapEq as bs
  | _, _ => false

end

/-- Modelled from the spec (section 4.5): the runtime dot-resolution
`do_dots`.  Stage (1), named-member lookup, finds nothing on any modelled
value (none of them carries Python attributes; the call-if-invocable rule
would need callables, which are outside the model); stage (2) treats the
value as a mapping; otherwise the lookup error of stage (3). -/
def do_dots (v : Value) (prop : String) : Except RErr Value :=
  match v with
  | .map kvs =>
    match lookupCtx prop kvs with
    | some r => .ok r
    | Option.none => .error (.keyError prop)
  | _ => .error (.keyError prop)

/-- Modelled from the spec (sections 4.4 and 6): evaluation of a parsed
expression against the merged environment, following Python semantics for the
operators on the modelled values.  `and`/`or` short-circuit and return an
operand; `/` always produces a Python float and is therefore `unmodelled`. -/
def pyBinop (op : String) (a b : Value) : Except RErr Value :=
  if op == "+" then
    match a, b with
    | .int x, .int y => .ok (.int (x + y))
    | .str x, .str y => .ok (.str (x ++ y))
    | .list x, .list y => .ok (.list (x ++ y))
    | _, _ => .error (.typeError "+")
  else if op == "-" then
    match a, b with
    | .int x, .int y => .ok (.int (x - y))
    | _, _ => .error (.typeError "-")
  else if op == "*" then
    match a, b with
    | .int x, .int y => .ok (.int (x * y))
    | _, _ => .error (.typeError "*")
  else if op == "%" then
    match a, b with
    | .int x, .int y => if y = 0 then .error .zeroDivision else .ok (.int (Int.fmod x y))
    | _, _ => .error (.typeError "%")
  else if op == "/" then .error (.unmodelled "true division")
  else if op == "==" then .ok (.bool (valueEq a b))
  else if op == "!=" then .ok (.bool (!valueEq a b))
  else if op == "<" || op == "<=" || op == ">" || op == ">=" then
    match a, b with
    | .int x, .int y =>
      .ok (.bool (if op == "<" then x < y else if op == "<=" then x ≤ y
                  else if op == ">" then x > y else x ≥ y))
    | .str x, .str y =>
      .ok (.bool (if op == "<" then x < y else if op == "<=" then x ≤ y
                  else if op == ">" then x > y else x ≥ y))
    | _, _ => .error (.typeError op)
  else .error (.unmodelled op)

mutual

/-- Modelled from the spec: evaluate a parsed expression clause.  The fuel only
bounds the recursion depth for the embedding; expression size bounds it in
reality. -/
def evalE : Nat → PyExpr → Ctx → Except RErr Value
  | 0, _, _ => .error .outOfFuel
  | _ + 1, .num v, _ => numLit v
  | _ + 1, .strLit v, _ => .ok (.str (String.mk ((v.data.drop 1).dropLast)))
  | _ + 1, .var n, ctx =>
    (match lookupCtx n ctx with
     | some val => .ok val
     | Option.none => .error (.keyError n))
  | fuel + 1, .paren e, ctx => evalE fuel e ctx
  | fuel + 1, .notE e, ctx => do
    let v ← evalE fuel e ctx
    .ok (.bool (!truthy v))
  | fuel + 1, .binop l op r, ctx => do
    let a ← evalE fuel l ctx
    if op == "and" then
      if truthy a then evalE fuel r ctx else .ok a
    else if op == "or" then
      if truthy a then .ok a else evalE fuel r ctx
    else do
      let b ← evalE fuel r ctx
      pyBinop op a b
  | fuel + 1, .dots l prop, ctx => do
    let v ← evalE fuel l ctx
    do_dots v prop
  | fuel + 1, .pipe f l, ctx => do
    let _ ← evalE fuel l ctx
    .error (.unmodelled ("filter call " ++ f))
  | fuel + 1, .call n args, ctx => do
    let _ ← evalArgs fuel args ctx
    .error (.unmodelled ("function call " ++ n))

def evalArgs : Nat → List PyExpr → Ctx → Except RErr (List Value)
  | 0, _, _ => .error .outOfFuel
  | _ + 1, [], _ => .ok []
  | fuel + 1, a :: rest, ctx => do
    let v ← evalE fuel a ctx
    let vs ← evalArgs fuel rest ctx
    .ok (v :: vs)

end

mutual

/-- Modelled from the spec (section 4.4): execute one instruction,
accumulating output text. -/
def execInst : Nat → Inst → Ctx → Except RErr String
  | 0, _, _ => .error .outOfFuel
  | _ + 1, .emitLit t, _ => .ok (String.mk t)
  | fuel + 1, .emitExpr e, ctx => do
    let v ← evalE fuel e ctx
    .ok (pyStr v)
  | fuel + 1, .ifI c body, ctx => do
    let v ← evalE fuel c ctx
    if truthy v then execInsts fuel body ctx else .ok ""
  | fuel + 1, .forI n e body, ctx => do
    let v ← evalE fuel e ctx
    match v with
    | .list vs => execFor fuel n body vs ctx
    | _ => .error .notIterable

def execInsts : Nat → List Inst → Ctx → Except RErr String
  | 0, _, _ => .error .outOfFuel
  | _ + 1, [], _ => .ok ""
  | fuel + 1, i :: is, ctx => do
    let s1 ← execInst fuel i ctx
    let s2 ← execInsts fuel is ctx
    .ok (s1 ++ s2)

def execFor : Nat → String → List Inst → List Value → Ctx → Except RErr String
  | 0, _, _, _, _ => .error .outOfFuel
  | _ + 1, _, _, [], _ => .ok ""
  | fuel + 1, n, body, v :: vs, ctx => do
    let s1 ← execInsts fuel body ((n, v) :: ctx)
    let s2 ← execFor fuel n body vs ctx
    .ok (s1 ++ s2)

end

/-- Modelled from the spec: a compiled template is the finalized instruction
program plus the construction-time globals; it holds no mutable per-render
state. -/
structure Templite where
  prog : List Inst
  gctx : Ctx

/-- Modelled from the spec (section 6, construction API): build a compiled
template from source text and construction-time globals, or fail atomically
with a compile-time syntax error. -/
def templiteMake (text : List Char) (gctx : Ctx) : Except TemplErr Templite := do
  let segs ← ttokenize text
  let prog ← compileSegsAux segs [] []
  .ok ⟨prog, gctx⟩

/-- Fuel bound for one render: every loop iterates over an explicit list, so
nesting depth times data size bounds the work; the bound only needs to be
large enough that `outOfFuel` is never the reported outcome on the inputs the
theorems touch. -/
def renderFuel (t : Templite) (ctx : Ctx) : Nat :=
  1000000 + 100 * t.prog.length + 100 * ctx.length

/-- Modelled from the spec (section 6, render API): merge the call-time
context over the construction-time globals (call-time wins) and execute the
instruction program, returning the accumulated output. -/
def renderT (t : Templite) (ctx : Ctx) : Except RErr String :=
  execInsts (renderFuel t ctx) t.prog (ctx ++ t.gctx)

/-- Construction followed by one render. -/
def compileAndRender (text : List Char) (gctx : Ctx) (ctx : Ctx) :
    Except TemplErr (Except RErr String) :=
  (templiteMake text gctx).map (fun t => renderT t ctx)

/-! ## Auxiliary predicates used by the theorems -/

/-- Whether the text contains one of the three delimiter openers at any
position. -/
def hasOpener : List Char → Bool
  | [] => false
  | c :: cs => startsOpener (c :: cs) || hasOpener cs

/-- Whether an error is of the `TempliteSyntaxError` kind (raised through
`templite._syntax_error`), as opposed to a plain `ValueError` or another
exception. -/
def isSynErr : TemplErr → Bool
  | .synErr _ _ => true
  | _ => false

/-- An `indent()` call on the root builder. -/
def isRootIndent : List Nat × CBOp → Bool
  | ([], .indent) => true
  | _ => false

/-- A `dedent()` call on the root builder. -/
def isRootDedent : List Nat × CBOp → Bool
  | ([], .dedent) => true
  | _ => false

/-- The segment list of a pure-literal source. -/
def litSegs (cs : List Char) : List Seg :=
  if cs.isEmpty then [] else [Seg.lit cs]

/-- A syntax-error message of one of the parser's three shapes: an atom
position with no valid prefix production, an expected-token mismatch, or an
infix position holding a token kind the infix step does not handle. -/
def parserMsgShape (msg : String) : Prop :=
  msg = "Invalid expression start" ∨ (∃ k, msg = "Expected " ++ k) ∨
    msg = "Invalid operator"

/-- Errors whose syntax-error messages (if any) have one of the parser's three
shapes. -/
def goodErr : TemplErr → Prop
  | .synErr msg _ => parserMsgShape msg
  | _ => True

/-- Results whose error (if any) satisfies `goodErr`. -/
def goodRes {α : Type} : Except TemplErr α → Prop
  | .error e => goodErr e
  | .ok _ => True

/-! ## Theorems -/

/-- C1: the parser resolves operator grouping by the binding-power table
(dot 80, `not` 70, pipe 60, `* / %` 50, `+ -` 40, comparisons 30, `and` 20,
`or` 10), and rendering `"\x7b\x7b1 + 2 * 3\x7d\x7d"` with an empty context
returns `"7"` (the clause parses as `(1 + (2 * 3))`). -/
theorem c1_binding_power_and_precedence :
    binding_power "." = 80 ∧ binding_power "not" = 70 ∧ binding_power "|" = 60 ∧
    binding_power "*" = 50 ∧ binding_power "/" = 50 ∧ binding_power "%" = 50 ∧
    binding_power "+" = 40 ∧ binding_power "-" = 40 ∧
    binding_power "==" = 30 ∧ binding_power "!=" = 30 ∧ binding_power "<" = 30 ∧
    binding_power "<=" = 30 ∧ binding_power ">" = 30 ∧ binding_power ">=" = 30 ∧
    binding_power "and" = 20 ∧ binding_power "or" = 10 ∧
    parseCode "1 + 2 * 3" = .ok ("(1 + (2 * 3))", []) ∧
    compileAndRender "\x7b\x7b1 + 2 * 3\x7d\x7d".data [] [] = .ok (.ok "7") :=
  ⟨by rfl, by rfl, by rfl, by rfl, by rfl, by rfl, by rfl, by rfl, by rfl,
   by rfl, by rfl, by rfl, by rfl, by rfl, by rfl, by rfl, by rfl, by rfl⟩

/-- C2: the expression tokenizer has no token class for `,` (it falls through
to `MISMATCH`), so a call with two comma-separated arguments fails at the
comma with a plain `ValueError` before the parser can run — even though
`handle_function_call` contains a dead check for a `","` token kind; calls
with zero or one argument do compile and register the callee as a required
free name. -/
theorem c2_function_call_comma_rejected :
    exprTokenize "f(a, b)".data = .error (.valueError "Unexpected character: ,") ∧
    parseCode "f(a, b)" = .error (.valueError "Unexpected character: ,") ∧
    templiteMake "\x7b\x7bf(a, b)\x7d\x7d".data [] =
      .error (.valueError "Unexpected character: ,") ∧
    parseCode "f(x)" = .ok ("c_f(c_x)", ["x", "f"]) ∧
    parseCode "f()" = .ok ("c_f()", ["f"]) :=
  ⟨by rfl, by rfl, by rfl, by rfl, by rfl⟩

/-- C3: binary operators of equal binding power group left to right: for any
two arithmetic operators of equal power, `a op1 b op2 c` parses as
`((a op1 b) op2 c)`; concretely `"a - b - c"` emits `((c_a - c_b) - c_c)` and
`"a|f|g"` emits `c_g(c_f(c_a))`, i.e. `g(f(a))`. -/
theorem c3_left_assoc (op1 op2 : String)
    (h1 : op1 = "*" ∨ op1 = "/" ∨ op1 = "%" ∨ op1 = "+" ∨ op1 = "-")
    (h2 : op2 = "*" ∨ op2 = "/" ∨ op2 = "%" ∨ op2 = "+" ∨ op2 = "-")
    (heq : binding_power op1 = binding_power op2) :
    parseToks [("ID", "a"), ("OP", op1), ("ID", "b"), ("OP", op2), ("ID", "c"),
        ("EOF", "EOF")] =
      .ok (.binop (.binop (.var "a") op1 (.var "b")) op2 (.var "c"),
        ["a", "b", "c"]) ∧
    parseCode "a - b - c" = .ok ("((c_a - c_b) - c_c)", ["a", "b", "c"]) ∧
    parseCode "a|f|g" = .ok ("c_g(c_f(c_a))", ["a", "f", "g"]) := by
  rcases h1 with rfl | rfl | rfl | rfl | rfl <;>
    rcases h2 with rfl | rfl | rfl | rfl | rfl <;>
    first
      | exact absurd heq (by decide)
      | exact ⟨by rfl, by rfl, by rfl⟩

/-- Witness for C3 at `op1 = op2 = "-"`. -/
theorem c3_left_assoc_witness :
    parseToks [("ID", "a"), ("OP", "-"), ("ID", "b"), ("OP", "-"), ("ID", "c"),
        ("EOF", "EOF")] =
      .ok (.binop (.binop (.var "a") "-" (.var "b")) "-" (.var "c"),
        ["a", "b", "c"]) ∧
    parseCode "a - b - c" = .ok ("((c_a - c_b) - c_c)", ["a", "b", "c"]) ∧
    parseCode "a|f|g" = .ok ("c_g(c_f(c_a))", ["a", "f", "g"]) :=
  c3_left_assoc "-" "-" (by decide) (by decide) rfl

/-- C5: a character matching no token class (`@`, `$`) makes construction fail
atomically — but with a plain builtin `ValueError` raised by `_tokenize`, not
with the `TempliteSyntaxError` subclass that every other syntax-error path
raises through `_syntax_error`. -/
theorem c5_bad_character_plain_valueerror :
    templiteMake "\x7b\x7ba @ b\x7d\x7d".data [] =
      .error (.valueError "Unexpected character: @") ∧
    templiteMake "\x7b\x7bx$\x7d\x7d".data [] =
      .error (.valueError "Unexpected character: $") ∧
    isSynErr (.valueError "Unexpected character: @") = false ∧
    isSynErr (.valueError "Unexpected character: $") = false :=
  ⟨by rfl, by rfl, by rfl, by rfl⟩

/-- C10: on a `DOT` token `led` unconditionally consumes the following token
and uses its literal text as the property name — no identifier check, no
error: `a.5` and `a."x"` compile to `do_dots` calls with property names `5`
and `"x"`, and a dot at end of input takes the `EOF` token's text `EOF` as the
property name (after which the enclosing precedence loop fails with an
`IndexError`, not a syntax error). -/
theorem c10_dot_consumes_any_token (fuel : Nat) (left : PyExpr) (s : PState)
    (pk pv : String)
    (hdot : s.tokens.get? s.pos = some ("DOT", "."))
    (hnext : s.tokens.get? (s.pos + 1) = some (pk, pv)) :
    led (fuel + 1) left s = .ok (.dots left pv, { s with pos := s.pos + 2 }) ∧
    parseCode "a.5" = .ok ("do_dots(c_a, \x275\x27)", ["a"]) ∧
    parseCode "a.\"x\"" = .ok ("do_dots(c_a, \x27\"x\"\x27)", ["a"]) ∧
    led 5 (.var "a") ⟨[("ID", "a"), ("DOT", "."), ("EOF", "EOF")], 1, ["a"]⟩ =
      .ok (.dots (.var "a") "EOF",
        ⟨[("ID", "a"), ("DOT", "."), ("EOF", "EOF")], 3, ["a"]⟩) ∧
    parseText "a." = .error .indexError := by
  refine ⟨?_, by rfl, by rfl, by rfl, by rfl⟩
  simp only [List.get?_eq_getElem?] at hdot hnext
  simp [led, peekT, advanceT, hdot, hnext, bind, Except.bind]

/-- Witness for C10 with a `STRING` token after the dot. -/
theorem c10_dot_consumes_any_token_witness :
    led 3 (.num "1") ⟨[("DOT", "."), ("STRING", "\"q\"")], 0, []⟩ =
      .ok (.dots (.num "1") "\"q\"",
        ⟨[("DOT", "."), ("STRING", "\"q\"")], 0 + 2, []⟩) ∧
    parseCode "a.5" = .ok ("do_dots(c_a, \x275\x27)", ["a"]) ∧
    parseCode "a.\"x\"" = .ok ("do_dots(c_a, \x27\"x\"\x27)", ["a"]) ∧
    led 5 (.var "a") ⟨[("ID", "a"), ("DOT", "."), ("EOF", "EOF")], 1, ["a"]⟩ =
      .ok (.dots (.var "a") "EOF",
        ⟨[("ID", "a"), ("DOT", "."), ("EOF", "EOF")], 3, ["a"]⟩) ∧
    parseText "a." = .error .indexError :=
  c10_dot_consumes_any_token 2 (.num "1")
    ⟨[("DOT", "."), ("STRING", "\"q\"")], 0, []⟩ "STRING" "\"q\"" rfl rfl

/-! ### CodeBuilder lemmas -/

lemma itemsStr_append (xs ys : List CBItem) :
    itemsStr (xs ++ ys) = itemsStr xs ++ itemsStr ys := by
  induction xs with
  | nil => simp [itemsStr]
  | cons x xs ih => simp [itemsStr, ih, String.append_assoc]

lemma listModify_append_left {α : Type} (f : α → α) (i : Nat) (xs ys : List α)
    (h : i < xs.length) :
    listModify f i (xs ++ ys) = listModify f i xs ++ ys := by
  induction xs generalizing i with
  | nil => simp at h
  | cons x xs ih =>
    cases i with
    | zero => simp [listModify]
    | succ j =>
      have hj : j < xs.length := by simp at h; omega
      simp [listModify, ih j hj]

/-- C6: converting a builder to a string yields the fragments in insertion
order: an `add_line` appends exactly the indentation current at the time of
the call, the line, and a newline, at the end of the target builder's
rendering; an operation on the root commutes with an operation addressed
inside an already-present item, so a section's contents land at the section's
insertion position even when they are added after later content was appended
to the parent; the two concrete scenarios check the end-to-end strings. -/
theorem c6_codebuilder_insertion_order (b : CodeBuilder) (line : String)
    (i : Nat) (p : List Nat) (op rop : CBOp) (hi : i < b.items.length) :
    CodeBuilder.toStr (applyLocal (.add_line line) b) =
      b.toStr ++ spaces b.level ++ line ++ "\n" ∧
    applyAt (i :: p) op (applyAt [] rop b) = applyAt [] rop (applyAt (i :: p) op b) ∧
    CodeBuilder.toStr (applyOps [([], .add_line "A"), ([], .add_section),
        ([], .add_line "B"), ([3], .add_line "S")] (CodeBuilder.init 0)) =
      "A\nS\nB\n" ∧
    CodeBuilder.toStr (applyOps [([], .indent), ([], .add_line "x"),
        ([], .dedent), ([], .add_line "y")] (CodeBuilder.init 0)) =
      "    x\ny\n" := by
  obtain ⟨items, lvl⟩ := b
  refine ⟨?_, ?_, by rfl, by rfl⟩
  · simp [applyLocal, CodeBuilder.toStr, itemsStr_append, itemsStr, itemStr,
      CodeBuilder.level, String.append_assoc]
  · simp only [CodeBuilder.items, CodeBuilder.level] at hi
    cases rop <;>
      simp [applyAt, applyLocal, listModify_append_left _ _ _ _ hi]

/-- Witness for C6: a later `add_line` into the section at index 1 commutes
with an earlier `add_line` on the root. -/
theorem c6_codebuilder_insertion_order_witness :
    CodeBuilder.toStr (applyLocal (.add_line "L")
        (CodeBuilder.mk [.frag "A", .sub (.mk [] 0)] 0)) =
      CodeBuilder.toStr (CodeBuilder.mk [.frag "A", .sub (.mk [] 0)] 0) ++
        spaces (CodeBuilder.level (.mk [.frag "A", .sub (.mk [] 0)] 0)) ++
        "L" ++ "\n" ∧
    applyAt [1] (.add_line "S") (applyAt [] (.add_line "B")
        (CodeBuilder.mk [.frag "A", .sub (.mk [] 0)] 0)) =
      applyAt [] (.add_line "B") (applyAt [1] (.add_line "S")
        (CodeBuilder.mk [.frag "A", .sub (.mk [] 0)] 0)) ∧
    CodeBuilder.toStr (applyOps [([], .add_line "A"), ([], .add_section),
        ([], .add_line "B"), ([3], .add_line "S")] (CodeBuilder.init 0)) =
      "A\nS\nB\n" ∧
    CodeBuilder.toStr (applyOps [([], .indent), ([], .add_line "x"),
        ([], .dedent), ([], .add_line "y")] (CodeBuilder.init 0)) =
      "    x\ny\n" :=
  c6_codebuilder_insertion_order (.mk [.frag "A", .sub (.mk [] 0)] 0) "L" 1 []
    (.add_line "S") (.add_line "B") (by decide)

lemma applyAt_cons_level (i : Nat) (p : List Nat) (op : CBOp) (b : CodeBuilder) :
    (applyAt (i :: p) op b).level = b.level := by
  obtain ⟨items, lvl⟩ := b
  rfl

lemma applyLocal_level (op : CBOp) (b : CodeBuilder) :
    (applyLocal op b).level =
      b.level + (if op = .indent then INDENT_STEP else 0) -
        (if op = .dedent then INDENT_STEP else 0) := by
  obtain ⟨items, lvl⟩ := b
  cases op <;> simp [applyLocal, CodeBuilder.level]

lemma applyOps_level (ops : List (List Nat × CBOp)) (b : CodeBuilder) :
    (applyOps ops b).level =
      b.level + INDENT_STEP * (ops.countP isRootIndent : Int) -
        INDENT_STEP * (ops.countP isRootDedent : Int) := by
  induction ops generalizing b with
  | nil => simp [applyOps]
  | cons po ops ih =>
    obtain ⟨path, op⟩ := po
    have hstep : applyOps ((path, op) :: ops) b = applyOps ops (applyAt path op b) := by
      simp [applyOps]
    rw [hstep, ih]
    cases path with
    | nil =>
      simp only [applyAt]
      rw [applyLocal_level op b]
      cases op <;>
        simp [List.countP_cons, isRootIndent, isRootDedent, INDENT_STEP] <;> ring
    | cons i p =>
      rw [applyAt_cons_level]
      simp [List.countP_cons, isRootIndent, isRootDedent]

/-- C7: `get_globals` asserts the tracked nesting depth is zero; starting from
a builder constructed at indentation 0, any operation sequence whose `indent`
and `dedent` calls on that builder balance leaves the depth at exactly zero,
so the assertion holds and finalization succeeds — the assertion-failure
branch is unreachable under that precondition. -/
theorem c7_finalize_balanced (ops : List (List Nat × CBOp))
    (h : ops.countP isRootIndent = ops.countP isRootDedent) :
    (applyOps ops (CodeBuilder.init 0)).level = 0 ∧
    get_globals (applyOps ops (CodeBuilder.init 0)) =
      some (CodeBuilder.toStr (applyOps ops (CodeBuilder.init 0))) := by
  have hl := applyOps_level ops (CodeBuilder.init 0)
  rw [h] at hl
  have hz : (applyOps ops (CodeBuilder.init 0)).level = 0 := by
    rw [hl]; simp [CodeBuilder.init, CodeBuilder.level]
  exact ⟨hz, by simp [get_globals, hz]⟩

/-- Witness for C7: one `indent`, one line, one `dedent`. -/
theorem c7_finalize_balanced_witness :
    (applyOps [([], .indent), ([], .add_line "x"), ([], .dedent)]
        (CodeBuilder.init 0)).level = 0 ∧
    get_globals (applyOps [([], .indent), ([], .add_line "x"), ([], .dedent)]
        (CodeBuilder.init 0)) =
      some (CodeBuilder.toStr (applyOps [([], .indent), ([], .add_line "x"),
        ([], .dedent)] (CodeBuilder.init 0))) :=
  c7_finalize_balanced [([], .indent), ([], .add_line "x"), ([], .dedent)]
    (by decide)

/-! ### Literal round-trip lemmas -/

lemma consLit_litSegs (c : Char) (cs : List Char) :
    consLit c (litSegs cs) = litSegs (c :: cs) := by
  cases cs <;> simp [consLit, litSegs]

lemma ttokenizeAux_noOpener (fuel : Nat) :
    ∀ cs : List Char, cs.length < fuel → hasOpener cs = false →
      ttokenizeAux fuel cs = .ok (litSegs cs) := by
  induction fuel with
  | zero => intro cs h _; omega
  | succ n ih =>
    intro cs hlen hop
    cases cs with
    | nil => simp [ttokenizeAux, litSegs]
    | cons c cs =>
      simp only [hasOpener, Bool.or_eq_false_iff] at hop
      obtain ⟨hso, hrest⟩ := hop
      simp only [startsOpener, List.isPrefixOf, Bool.or_eq_false_iff,
        Bool.and_eq_false_iff, beq_eq_false_iff_ne] at hso
      obtain ⟨⟨h1, h2⟩, h3⟩ := hso
      have hc1 : (c == '{' && List.isPrefixOf ['{'] cs) = false := by
        simp only [Bool.and_eq_false_iff, beq_eq_false_iff_ne]
        rcases h1 with h | h
        · exact Or.inl (Ne.symm h)
        · exact Or.inr (by simpa using h)
      have hc2 : (c == '{' && List.isPrefixOf ['%'] cs) = false := by
        simp only [Bool.and_eq_false_iff, beq_eq_false_iff_ne]
        rcases h2 with h | h
        · exact Or.inl (Ne.symm h)
        · exact Or.inr (by simpa using h)
      have hc3 : (c == '{' && List.isPrefixOf ['#'] cs) = false := by
        simp only [Bool.and_eq_false_iff, beq_eq_false_iff_ne]
        rcases h3 with h | h
        · exact Or.inl (Ne.symm h)
        · exact Or.inr (by simpa using h)
      have hlen' : cs.length < n := by simp at hlen; omega
      simp only [ttokenizeAux, hc1, hc2, hc3, Bool.false_eq_true, if_false,
        ih cs hlen' hrest, Except.map_ok, consLit_litSegs]

lemma ttokenize_noOpener (cs : List Char) (h : hasOpener cs = false) :
    ttokenize cs = .ok (litSegs cs) :=
  ttokenizeAux_noOpener (cs.length + 1) cs (by omega) h

lemma execInsts_nil_ok (fuel : Nat) (env : Ctx) :
    execInsts (fuel + 1) [] env = .ok "" := rfl

lemma execInsts_emitLit (fuel : Nat) (t : List Char) (env : Ctx) :
    execInsts (fuel + 2) [.emitLit t] env = .ok (String.mk t) := by
  show (do
    let s1 ← execInst (fuel + 1) (.emitLit t) env
    let s2 ← execInsts (fuel + 1) [] env
    .ok (s1 ++ s2)) = Except.ok (String.mk t)
  simp [execInst, execInsts, bind, Except.bind, String.append_empty]

/-- C8: a source text containing none of the three delimiter openers compiles
to a single literal instruction and renders, under any construction globals
and any context, to exactly that text. -/
theorem c8_literal_roundtrip (cs : List Char) (gctx ctx : Ctx)
    (h : hasOpener cs = false) :
    compileAndRender cs gctx ctx = .ok (.ok (String.mk cs)) := by
  unfold compileAndRender templiteMake
  rw [ttokenize_noOpener cs h]
  cases cs with
  | nil =>
    simp only [litSegs, List.isEmpty_nil, if_true, compileSegsAux, bind,
      Except.bind, Except.map, renderT]
    have hf : renderFuel ⟨[], gctx⟩ ctx = (renderFuel ⟨[], gctx⟩ ctx - 1) + 1 := by
      unfold renderFuel; omega
    rw [hf, execInsts_nil_ok]
  | cons c cs =>
    simp only [litSegs, List.isEmpty_cons, Bool.false_eq_true, if_false,
      compileSegsAux, List.nil_append, bind, Except.bind, Except.map, renderT]
    have hf : renderFuel ⟨[.emitLit (c :: cs)], gctx⟩ ctx =
        (renderFuel ⟨[.emitLit (c :: cs)], gctx⟩ ctx - 2) + 2 := by
      unfold renderFuel; omega
    rw [hf, execInsts_emitLit]

/-- Witness for C8 on a concrete opener-free text. -/
theorem c8_literal_roundtrip_witness :
    compileAndRender "Hello \x7d\x7d \x7b %\x7d world\n\t\x7b # ".data [("g", .int 1)]
      [("x", .str "y")] =
      .ok (.ok (String.mk "Hello \x7d\x7d \x7b %\x7d world\n\t\x7b # ".data)) :=
  c8_literal_roundtrip "Hello \x7d\x7d \x7b %\x7d world\n\t\x7b # ".data [("g", .int 1)]
    [("x", .str "y")] (by rfl)

/-- C9: rendering is a pure function of the compiled template and the context
— the compiled template carries no mutable per-render state in the model, so
two renders with identical context values return byte-identical results. -/
theorem c9_render_deterministic (t : Templite) (ctx : Ctx)
    (r1 r2 : Except RErr String)
    (h1 : renderT t ctx = r1) (h2 : renderT t ctx = r2) : r1 = r2 := by
  rw [← h1, ← h2]

/-- Witness for C9 on a concrete template and context. -/
theorem c9_render_deterministic_witness :
    (Except.ok "hi1" : Except RErr String) = .ok "hi1" :=
  c9_render_deterministic
    ⟨[.emitLit "hi".data, .emitExpr (.var "x")], []⟩ [("x", .int 1)]
    (.ok "hi1") (.ok "hi1") (by rfl) (by rfl)

/-! ### Error-shape lemmas for the expression parser -/

lemma goodRes_bind {α β : Type} (x : Except TemplErr α)
    (f : α → Except TemplErr β) (hx : goodRes x)
    (hf : ∀ a, goodRes (f a)) : goodRes (x >>= f) := by
  cases x with
  | error e => exact hx
  | ok a => exact hf a

lemma goodRes_map {α β : Type} (g : α → β) (x : Except TemplErr α)
    (hx : goodRes x) : goodRes (g <$> x) := by
  cases x with
  | error e => exact hx
  | ok a => trivial

lemma goodRes_peekT (s : PState) : goodRes (peekT s) := by
  unfold peekT
  cases s.tokens.get? s.pos <;> trivial

lemma goodRes_advanceT (s : PState) : goodRes (advanceT s) := by
  unfold advanceT
  cases s.tokens.get? s.pos <;> trivial

lemma goodRes_matchTok (k : String) (s : PState) : goodRes (matchTok k s) := by
  unfold matchTok
  refine goodRes_bind _ _ (goodRes_peekT s) ?_
  rintro ⟨tk, tv⟩
  by_cases h : tk == k
  · simp only [h, if_true]
    exact goodRes_advanceT s
  · simp only [h, Bool.false_eq_true, if_false]
    exact Or.inr (Or.inl ⟨k, rfl⟩)

lemma parser_goodRes :
    ∀ fuel : Nat,
      (∀ s, goodRes (nud fuel s)) ∧
      (∀ rbp s, goodRes (parse_expression fuel rbp s)) ∧
      (∀ rbp left s, goodRes (parse_loop fuel rbp left s)) ∧
      (∀ left s, goodRes (led fuel left s)) ∧
      (∀ name s, goodRes (handle_function_call fuel name s)) ∧
      (∀ acc s, goodRes (call_args fuel acc s)) := by
  intro fuel
  induction fuel with
  | zero =>
    exact ⟨fun s => trivial, fun rbp s => trivial, fun rbp left s => trivial,
      fun left s => trivial, fun name s => trivial, fun acc s => trivial⟩
  | succ n ih =>
    obtain ⟨ihnud, ihpe, ihpl, ihled, ihhfc, ihca⟩ := ih
    refine ⟨?_, ?_, ?_, ?_, ?_, ?_⟩
    · intro s
      simp only [nud]
      refine goodRes_bind _ _ (goodRes_advanceT s) ?_
      rintro ⟨⟨k, v⟩, s1⟩
      split
      · trivial
      · split
        · trivial
        · split
          · refine goodRes_bind _ _ (goodRes_peekT s1) ?_
            intro t2
            split
            · exact ihhfc v s1
            · trivial
          · split
            · refine goodRes_bind _ _ (ihpe 0 s1) ?_
              rintro ⟨e, s2⟩
              refine goodRes_bind _ _ (goodRes_matchTok "RPAREN" s2) ?_
              rintro ⟨t, s3⟩
              trivial
            · split
              · refine goodRes_bind _ _ (ihpe 70 s1) ?_
                rintro ⟨e, s2⟩
                trivial
              · exact Or.inl rfl
    · intro rbp s
      simp only [parse_expression]
      refine goodRes_bind _ _ (ihnud s) ?_
      rintro ⟨left, s1⟩
      exact ihpl rbp left s1
    · intro rbp left s
      simp only [parse_loop]
      refine goodRes_bind _ _ (goodRes_peekT s) ?_
      rintro ⟨k, v⟩
      split
      · refine goodRes_bind _ _ (ihled left s) ?_
        rintro ⟨left2, s1⟩
        exact ihpl rbp left2 s1
      · trivial
    · intro left s
      simp only [led]
      refine goodRes_bind _ _ (goodRes_peekT s) ?_
      rintro ⟨k, v⟩
      split
      · refine goodRes_bind _ _ (goodRes_advanceT s) ?_
        rintro ⟨t, s1⟩
        refine goodRes_bind _ _ (ihpe (binding_power v) s1) ?_
        rintro ⟨r, s2⟩
        trivial
      · split
        · refine goodRes_bind _ _ (goodRes_advanceT s) ?_
          rintro ⟨t, s1⟩
          refine goodRes_bind _ _ (goodRes_peekT s1) ?_
          intro pt
          refine goodRes_bind _ _ (goodRes_advanceT s1) ?_
          rintro ⟨t2, s2⟩
          trivial
        · split
          · refine goodRes_bind _ _ (goodRes_advanceT s) ?_
            rintro ⟨t, s1⟩
            refine goodRes_bind _ _ (goodRes_peekT s1) ?_
            intro ft
            refine goodRes_bind _ _ (goodRes_advanceT s1) ?_
            rintro ⟨t2, s2⟩
            trivial
          · exact Or.inr (Or.inr rfl)
    · intro name s
      simp only [handle_function_call]
      refine goodRes_bind _ _ (goodRes_advanceT s) ?_
      rintro ⟨t, s1⟩
      refine goodRes_bind _ _ (ihca [] s1) ?_
      rintro ⟨args, s2⟩
      refine goodRes_bind _ _ (goodRes_matchTok "RPAREN" s2) ?_
      rintro ⟨t2, s3⟩
      trivial
    · intro acc s
      simp only [call_args]
      refine goodRes_bind _ _ (goodRes_peekT s) ?_
      rintro ⟨k, v⟩
      split
      · trivial
      · refine goodRes_bind _ _ (ihpe 0 s) ?_
        rintro ⟨a, s1⟩
        refine goodRes_bind _ _ (goodRes_peekT s1) ?_
        rintro ⟨k2, v2⟩
        split
        · refine goodRes_bind _ _ (goodRes_advanceT s1) ?_
          rintro ⟨t, s2⟩
          exact ihca (acc ++ [a]) s2
        · exact ihca (acc ++ [a]) s1

lemma tokenize_goodRes : ∀ (fuel : Nat) (prev : Option Char) (cs : List Char),
    goodRes (exprTokenizeAux fuel prev cs) := by
  intro fuel
  induction fuel with
  | zero => intro prev cs; trivial
  | succ n ih =>
    intro prev cs
    cases cs with
    | nil => trivial
    | cons c cs =>
      show goodRes (match exprTokStep prev c cs with
        | .emit t p rest => (fun ts => t :: ts) <$> exprTokenizeAux n p rest
        | .skip p rest => exprTokenizeAux n p rest
        | .mismatch msg => .error (.valueError msg))
      cases exprTokStep prev c cs with
      | emit t p rest => exact goodRes_map _ _ (ih p rest)
      | skip p rest => exact ih p rest
      | mismatch msg => trivial

lemma parseText_goodRes (text : String) : goodRes (parseText text) := by
  unfold parseText parseToks exprTokenize
  refine goodRes_bind _ _ (tokenize_goodRes _ _ _) ?_
  intro toks
  refine goodRes_bind _ _ ((parser_goodRes _).2.1 0 _) ?_
  rintro ⟨e, s⟩
  refine goodRes_bind _ _ (goodRes_matchTok "EOF" s) ?_
  rintro ⟨t, s2⟩
  trivial

/-- C4 counterexample: the expression `1and` (the `\b` of the `LOGIC`
alternative fails between `1` and `and`, so `and` tokenizes as an *identifier*
carrying binding power 20 into the infix loop) raises the syntax error
"Invalid operator" — a third parser-error situation, neither the
"Invalid expression start" message nor an "Expected ..." expected-token
message. -/
theorem c4_counterexample :
    parseCode "1and" = .error (.synErr "Invalid operator" "and") ∧
    "Invalid operator" ≠ "Invalid expression start" ∧
    ("Invalid operator" : String).data.take 9 ≠ ("Expected " : String).data :=
  ⟨by rfl, by decide, by decide⟩

/-- C4 amended: parsing an expression clause raises a syntax error in exactly
three parser-error situations — an atom position with no valid prefix
production ("Invalid expression start"), a missing expected token
("Expected LPAREN-or-RPAREN-or-EOF", naming the expected kind and the found
token), and an infix position holding a token of a kind the infix step does
not handle ("Invalid operator", reachable when `and`/`or`/`not` is glued to a
preceding word or digit so it tokenizes as an identifier); every syntax error
the parser can produce has one of these three message shapes, and each shape
is reachable. -/
theorem c4_amended_error_forms (text : String) (msg thing : String)
    (h : parseText text = .error (.synErr msg thing)) :
    (msg = "Invalid expression start" ∨ (∃ k, msg = "Expected " ++ k) ∨
      msg = "Invalid operator") ∧
    parseCode "+" = .error (.synErr "Invalid expression start" "+") ∧
    parseCode "(a" = .error (.synErr "Expected RPAREN" "EOF") ∧
    parseCode "a b" = .error (.synErr "Expected EOF" "b") ∧
    parseCode "1and" = .error (.synErr "Invalid operator" "and") := by
  have hg := parseText_goodRes text
  rw [h] at hg
  exact ⟨hg, by rfl, by rfl, by rfl, by rfl⟩

/-- Witness for C4 amended, instantiated at the input `1and`. -/
theorem c4_amended_error_forms_witness :
    (("Invalid operator" : String) = "Invalid expression start" ∨
      (∃ k, ("Invalid operator" : String) = "Expected " ++ k) ∨
      ("Invalid operator" : String) = "Invalid operator") ∧
    parseCode "+" = .error (.synErr "Invalid expression start" "+") ∧
    parseCode "(a" = .error (.synErr "Expected RPAREN" "EOF") ∧
    parseCode "a b" = .error (.synErr "Expected EOF" "b") ∧
    parseCode "1and" = .error (.synErr "Invalid operator" "and") :=
  c4_amended_error_forms "1and" "Invalid operator" "and" (by rfl)
